import Mathlib

/-!
# Shallow embedding of `canvas_bulk_download.py`

This file embeds the single source file of the repository
(`src/canvas_bulk_download.py`) as pure Lean functions and proves the
specification claims about it.

Modelling conventions:

* Every observable action of the script (API request, filesystem write,
  colored log line) is recorded as an `Effect` in a trace (`List Effect`).
* Outcomes of the external world (whether an HTTP request succeeds, whether
  the Canvas API authorizes an access) are oracle flags stored on the value
  objects (`CFile.headOk`, `Folder.filesOk`, ...): the script only observes
  these outcomes, it does not compute them.
* Python exceptions are modelled with `Option Exc`: a function returns the
  trace of effects it performed together with `some e` when the exception
  `e` escapes it, `none` when it returns normally.  `try/except` blocks of
  the source become `match` on that component.
* A Python falsy URL (`None` or `""`) is modelled as the empty string.
* Thread-pool execution is linearized: the trace of a submitted download
  task is recorded at its submission point.  The bounded-concurrency
  behaviour of `ThreadPoolExecutor(max_workers=MAX_THREADS)` is modelled
  separately as a transition system (`PoolStep`), since it is the only
  genuinely concurrent behaviour of the script.
-/

/-- Exceptions that cross function boundaries in the script.
`unauthorized` models `canvasapi.exceptions.Unauthorized` (carrying the id of
the object whose access was refused); `requestError` models any exception
raised by the `requests` library (e.g. by the `requests.head` size probe). -/
inductive Exc where
  | unauthorized (id : Nat)
  | requestError
deriving Repr, DecidableEq

/-- One observable action of the script: an API call, a filesystem effect, or
a printed log line.  Log constructors mirror the individual `print(Fore...)`
statements of the source. -/
inductive Effect where
  | apiGetCourse (courseId : Nat)
  | apiGetFolders (courseId : Nat)
  | apiGetFiles (folderId : Nat)
  | apiGetSubfolders (folderId : Nat)
  | apiGetModules (courseId : Nat)
  | apiGetModuleItems (moduleId : Nat)
  | apiGetFile (contentId : Nat)
  | apiHead (url : String)
  | apiGet (url : String)
  | submitDownload (url : String)
  | fsMkdir (path : String)
  | fsWrite (path : String)
  | logProcessingCourse (name : String)
  | logSkipCourseExists (name : String)
  | logSkipNoUrl
  | logInvalidUrl (url : String)
  | logDownloadSuccess (path : String)
  | logDownloadFailed (url : String)
  | logUnauthorizedFolder (folderId : Nat)
  | logUnauthorizedInCourse (courseId : Nat)
  | logErrorFiles (courseId : Nat)
  | logUnauthorizedModules (courseId : Nat)
  | logErrorModules (courseId : Nat)
  | logUnauthorizedModule (moduleId courseId : Nat)
  | logErrorModule (moduleId courseId : Nat)
  | logFileNotFound (itemId courseId : Nat)
  | logNoUrlModuleItem (itemId courseId : Nat)
  | logUnauthorizedCourse (courseId : Nat)
  | logCourseNotFound (courseId : Nat)
deriving Repr, DecidableEq

/-- `True` exactly for the effects that are calls to the Canvas/HTTP APIs. -/
def Effect.isApiCall : Effect → Bool
  | .apiGetCourse _ | .apiGetFolders _ | .apiGetFiles _ | .apiGetSubfolders _
  | .apiGetModules _ | .apiGetModuleItems _ | .apiGetFile _
  | .apiHead _ | .apiGet _ => true
  | _ => false

/-- `True` exactly for the effects that touch the local filesystem
(`os.makedirs` and `open(..., "wb")`/chunk writes). -/
def Effect.isFsEffect : Effect → Bool
  | .fsMkdir _ | .fsWrite _ => true
  | _ => false

/-- `True` for the skip log `print(Fore.RED + f"Skipping file with no URL: ...")`. -/
def Effect.isSkipNoUrlLog : Effect → Bool
  | .logSkipNoUrl => true
  | _ => false

/-- `True` for the submission of a download task (`executor.submit(download_file, ...)`). -/
def Effect.isSubmit : Effect → Bool
  | .submitDownload _ => true
  | _ => false

/-- Line 26: `MAX_THREADS = 2`. -/
def MAX_THREADS : Nat := 2

/-- A word character of the regex class `\w` (letters, digits, underscore). -/
def isWordChar (c : Char) : Bool :=
  c.isAlphanum || c == '_'

/-- A character the regex `[^\w\-_\. ]` of `sanitize_filename` leaves alone:
word characters, hyphen, underscore, period, space. -/
def isAllowedChar (c : Char) : Bool :=
  isWordChar c || c == '-' || c == '_' || c == '.' || c == ' '

/-- Lines 29-30: `sanitize_filename` replaces every character outside the
allow-list with an underscore.  The regex is a single-character class, so
`re.sub` is a character-wise map. -/
def sanitize_filename (name : String) : String :=
  String.mk (name.data.map (fun c => if isAllowedChar c then c else '_'))

/-- `os.path.join(a, b)` for the relative paths the script builds. -/
def pathJoin (a b : String) : String := a ++ "/" ++ b

/-- A Canvas file object as consumed by the script: its `url` and
`display_name` attributes, plus oracle flags for the outcomes of the HTTP
requests the script issues against `url`:
* `headOk`: the `requests.head(file.url)` size probe returns normally;
* `getOk`: `requests.get(file_url, stream=True)` returns a response (no
  network error);
* `statusOk`: that response has a 2xx status (`raise_for_status` passes). -/
structure CFile where
  url : String
  display_name : String
  headOk : Bool
  getOk : Bool
  statusOk : Bool
deriving Repr, DecidableEq

/-- Python `str.startswith(p)`: `p` is a prefix of the string.  Defined on
the character lists so that it evaluates by kernel reduction. -/
def startswith (s p : String) : Bool := p.data.isPrefixOf s.data

/-- Lines 40-52 of `download_file`: the body of the `try` block.  Issues the
GET, checks the status, and on success streams the body into the destination
file (one `fsWrite` effect: `open` creates the file and the chunk loop fills
it).  Returns `some .requestError` when the GET raises or the status is not
2xx, in which case the destination file is never opened. -/
def download_file_body (f : CFile) (dest_path : String) : List Effect × Option Exc :=
  if f.getOk = false then ([Effect.apiGet f.url], some Exc.requestError)
  else if f.statusOk = false then ([Effect.apiGet f.url], some Exc.requestError)
  else ([Effect.apiGet f.url, Effect.fsWrite dest_path, Effect.logDownloadSuccess dest_path], none)

/-- Lines 33-52: `download_file(file_url, file_name, folder_dir, pbar)`.
If the URL does not start with `"http"` it logs and returns at once; otherwise
it runs the `try` body and the `except Exception` clause converts any raised
exception into a failure log.  The function never lets an exception escape. -/
def download_file (f : CFile) (folder_dir : String) : List Effect :=
  if startswith f.url "http" = false then [Effect.logInvalidUrl f.url]
  else
    let dest_path := pathJoin folder_dir (sanitize_filename f.display_name)
    match download_file_body f dest_path with
    | (t, none) => t
    | (t, some _) => t ++ [Effect.logDownloadFailed f.url]

/-- Lines 55-77: `process_files(files, folder_dir)`.  For each file in order:
a falsy URL is logged and skipped; otherwise the size probe
`requests.head(file.url)` runs (its exception, if any, escapes the function:
the loop is not inside any `try`), and the download task is submitted.  The
trace of a submitted task is recorded at its submission point (linearization
of the pool execution; the `with` block and the `future.result()` loop make
the function wait for all submitted tasks, and on an escaping probe exception
`ThreadPoolExecutor.__exit__` still waits for the already-submitted tasks, so
their traces are complete either way). -/
def process_files (files : List CFile) (folder_dir : String) : List Effect × Option Exc :=
  match files with
  | [] => ([], none)
  | f :: rest =>
    if f.url = "" then
      let r := process_files rest folder_dir
      (Effect.logSkipNoUrl :: r.1, r.2)
    else if f.headOk then
      let r := process_files rest folder_dir
      (Effect.apiHead f.url :: Effect.submitDownload f.url ::
        (download_file f folder_dir ++ r.1), r.2)
    else
      ([Effect.apiHead f.url], some Exc.requestError)

/-- The files actually submitted to the pool by `process_files`: files with a
falsy URL are skipped, and a size-probe exception stops the loop so that no
later file is submitted. -/
def submittedFiles : List CFile → List CFile
  | [] => []
  | f :: rest =>
    if f.url = "" then submittedFiles rest
    else if f.headOk then f :: submittedFiles rest
    else []

/-- A Canvas folder object: its `id`, `name` and `full_name` attributes, the
results of `folder.get_files()` and `folder.get_folders()`, and oracle flags
for whether those two API calls are authorized (`False` means the call raises
`Unauthorized`). -/
inductive Folder where
  | mk (id : Nat) (name : String) (full_name : String)
       (filesOk : Bool) (files : List CFile)
       (subsOk : Bool) (subs : List Folder)
deriving Repr

def Folder.id : Folder → Nat
  | .mk i _ _ _ _ _ _ => i

def Folder.name : Folder → String
  | .mk _ n _ _ _ _ _ => n

def Folder.full_name : Folder → String
  | .mk _ _ fn _ _ _ _ => fn

def Folder.filesOk : Folder → Bool
  | .mk _ _ _ fo _ _ _ => fo

def Folder.files : Folder → List CFile
  | .mk _ _ _ _ fs _ _ => fs

def Folder.subsOk : Folder → Bool
  | .mk _ _ _ _ _ so _ => so

def Folder.subs : Folder → List Folder
  | .mk _ _ _ _ _ _ s => s

mutual
/-- Lines 80-90: `download_folder_contents(folder, folder_dir)`.  The whole
body is a `try` whose `except Unauthorized` logs and returns; an
`Unauthorized` raised by this folder's own `get_files()`/`get_folders()` is
therefore caught and logged here, while one raised inside a recursive call is
caught by that call (each invocation has its own handler), so `Unauthorized`
never escapes this function.  A `requests` exception raised by the
`process_files` size probe is not an `Unauthorized` and escapes. -/
def download_folder_contents (folder : Folder) (folder_dir : String) :
    List Effect × Option Exc :=
  match folder with
  | .mk fid _ _ filesOk files subsOk subs =>
    if filesOk = false then
      ([Effect.apiGetFiles fid, Effect.logUnauthorizedFolder fid], none)
    else
      let pf := process_files files folder_dir
      let t1 := Effect.apiGetFiles fid :: pf.1
      match pf.2 with
      | some e => (t1, some e)
      | none =>
        if subsOk = false then
          (t1 ++ [Effect.apiGetSubfolders fid, Effect.logUnauthorizedFolder fid], none)
        else
          let rs := download_subfolder_list subs folder_dir
          (t1 ++ Effect.apiGetSubfolders fid :: rs.1, rs.2)

/-- Lines 85-88: the `for subfolder in subfolders:` loop.  Each subfolder gets
its local directory created (`os.makedirs(..., exist_ok=True)`) and is then
walked recursively; an exception escaping the recursive call (only a
`requests` error can) aborts the loop. -/
def download_subfolder_list (subs : List Folder) (folder_dir : String) :
    List Effect × Option Exc :=
  match subs with
  | [] => ([], none)
  | sub :: rest =>
    let subfolder_dir := pathJoin folder_dir (sanitize_filename sub.name)
    let r := download_folder_contents sub subfolder_dir
    let t := Effect.fsMkdir subfolder_dir :: r.1
    match r.2 with
    | some e => (t, some e)
    | none =>
      let rr := download_subfolder_list rest folder_dir
      (t ++ rr.1, rr.2)
end

/-- A module item: its `id`, `type` tag and `content_id` attributes. -/
structure ModuleItem where
  id : Nat
  type : String
  content_id : Nat
deriving Repr, DecidableEq

/-- A module: its `id` and `name`, plus the result of `get_module_items()`
and the oracle flag for whether that call is authorized. -/
structure CModule where
  id : Nat
  name : String
  itemsOk : Bool
  items : List ModuleItem
deriving Repr, DecidableEq

/-- A course object: `id`, `name`, and the results of `course.get_folders()`
and `course.get_modules()` with their authorization flags. -/
structure Course where
  id : Nat
  name : String
  foldersOk : Bool
  folders : List Folder
  modulesOk : Bool
  modules : List CModule
deriving Repr

/-- Outcome of `canvas.get_course(course_id)`. -/
inductive CourseResult where
  | ok (c : Course)
  | unauthorized
  | notFound
deriving Repr

/-- The Canvas API as seen by the script: course lookup and file lookup
(`canvas.get_file`, where `none` models `ResourceDoesNotExist`). -/
structure Env where
  getCourse : Nat → CourseResult
  getFile : Nat → Option CFile

/-- Line 113-115: `next(f for f in folders if f.full_name == "course files")`.
`none` models the `StopIteration` raised when no folder matches (caught by the
enclosing `except Exception`). -/
def findRootFolder (folders : List Folder) : Option Folder :=
  folders.find? (fun f => f.full_name == "course files")

/-- Lines 111-120: the first pass of `download_course_files` — locate the
`"course files"` root folder and walk it.  `except Unauthorized` and
`except Exception` convert every escaping exception into a log line, so this
pass never raises. -/
def course_files_pass (course : Course) (course_id : Nat) (course_dir : String) :
    List Effect :=
  if course.foldersOk = false then
    [Effect.apiGetFolders course_id, Effect.logUnauthorizedInCourse course_id]
  else
    Effect.apiGetFolders course_id ::
    match findRootFolder course.folders with
    | none => [Effect.logErrorFiles course_id]
    | some root =>
      let r := download_folder_contents root course_dir
      r.1 ++
        match r.2 with
        | none => []
        | some (Exc.unauthorized _) => [Effect.logUnauthorizedInCourse course_id]
        | some Exc.requestError => [Effect.logErrorFiles course_id]

/-- Lines 128-155: processing of one module item inside the
`for item in module_items:` loop.  Only items with `type == "File"` are
considered; `canvas.get_file` may raise `ResourceDoesNotExist` (caught and
logged by the item-level `try`); a file object with a falsy `url` is logged;
otherwise `process_files([file], module_dir)` runs and its probe exception,
not being a `ResourceDoesNotExist`, escapes to the module-level handler. -/
def process_module_item (env : Env) (course_id : Nat) (module_dir : String)
    (item : ModuleItem) : List Effect × Option Exc :=
  if item.type = "File" then
    match env.getFile item.content_id with
    | none => ([Effect.apiGetFile item.content_id,
                Effect.logFileNotFound item.id course_id], none)
    | some file =>
      if file.url = "" then
        ([Effect.apiGetFile item.content_id,
          Effect.logNoUrlModuleItem item.id course_id], none)
      else
        let r := process_files [file] module_dir
        (Effect.apiGetFile item.content_id :: r.1, r.2)
  else ([], none)

/-- The `for item in module_items:` loop: an exception escaping one item
aborts the loop (and is caught one level up, per module). -/
def process_module_items (env : Env) (course_id : Nat) (module_dir : String) :
    List ModuleItem → List Effect × Option Exc
  | [] => ([], none)
  | item :: rest =>
    let r := process_module_item env course_id module_dir item
    match r.2 with
    | some e => (r.1, some e)
    | none =>
      let rr := process_module_items env course_id module_dir rest
      (r.1 ++ rr.1, rr.2)

/-- Lines 124-155: processing of one module inside the
`for module in modules:` loop.  The module directory is created, then the
module-level `try` runs `get_module_items()` and the item loop; its
`except Unauthorized` / `except Exception` clauses log every escaping
exception, so one module never aborts its siblings. -/
def process_module (env : Env) (course_id : Nat) (course_dir : String)
    (m : CModule) : List Effect :=
  let module_dir := pathJoin course_dir (sanitize_filename m.name)
  Effect.fsMkdir module_dir ::
  if m.itemsOk = false then
    [Effect.apiGetModuleItems m.id, Effect.logUnauthorizedModule m.id course_id]
  else
    let r := process_module_items env course_id module_dir m.items
    Effect.apiGetModuleItems m.id :: r.1 ++
      match r.2 with
      | none => []
      | some (Exc.unauthorized _) => [Effect.logUnauthorizedModule m.id course_id]
      | some Exc.requestError => [Effect.logErrorModule m.id course_id]

/-- Lines 122-161: the second pass of `download_course_files` — enumerate the
modules and process each one.  Again every escaping exception is converted to
a log line by the surrounding handlers. -/
def modules_pass (env : Env) (course : Course) (course_id : Nat)
    (course_dir : String) : List Effect :=
  if course.modulesOk = false then
    [Effect.apiGetModules course_id, Effect.logUnauthorizedModules course_id]
  else
    Effect.apiGetModules course_id ::
    (course.modules.map (process_module env course_id course_dir)).flatten

/-- Lines 93-168: `download_course_files(course_id)`.  Resolves the course,
logs it, and returns at once if the local course directory already exists;
otherwise creates the directory and runs the two passes.  The filesystem is
modelled as the list `fs` of existing paths, queried by `os.path.exists`.
The outermost `try` catches everything, so the function always returns a
plain trace. -/
def download_course_files (env : Env) (fs : List String) (course_id : Nat) :
    List Effect :=
  match env.getCourse course_id with
  | CourseResult.unauthorized =>
    [Effect.apiGetCourse course_id, Effect.logUnauthorizedCourse course_id]
  | CourseResult.notFound =>
    [Effect.apiGetCourse course_id, Effect.logCourseNotFound course_id]
  | CourseResult.ok course =>
    let course_name := sanitize_filename course.name
    let course_dir := pathJoin "canvas_downloads" course_name
    let pre := [Effect.apiGetCourse course_id, Effect.logProcessingCourse course.name]
    if fs.contains course_dir then
      pre ++ [Effect.logSkipCourseExists course.name]
    else
      pre ++ Effect.fsMkdir course_dir ::
        (course_files_pass course course_id course_dir ++
         modules_pass env course course_id course_dir)

/-- State of the `ThreadPoolExecutor` created by one `process_files` call:
tasks not yet started, tasks currently executed by a worker thread, and
finished tasks. -/
structure PoolState where
  pending : List CFile
  running : List CFile
  done : List CFile
deriving Repr, DecidableEq

/-- The pool created at the start of one `process_files` call: every file the
loop submits is pending, nothing runs yet. -/
def initPool (files : List CFile) : PoolState :=
  { pending := submittedFiles files, running := [], done := [] }

/-- One scheduling step of `ThreadPoolExecutor(max_workers=MAX_THREADS)`:
a worker may start the next pending task only when fewer than `MAX_THREADS`
tasks are running, and any running task may finish.  Tasks are started in
submission order and are never cancelled. -/
inductive PoolStep : PoolState → PoolState → Prop where
  | start (t : CFile) (rest : List CFile) (s : PoolState) :
      s.running.length < MAX_THREADS → s.pending = t :: rest →
      PoolStep s { pending := rest, running := t :: s.running, done := s.done }
  | finish (t : CFile) (pre post : List CFile) (s : PoolState) :
      s.running = pre ++ t :: post →
      PoolStep s { pending := s.pending, running := pre ++ post, done := t :: s.done }

/-- Reflexive-transitive closure of `PoolStep`: the states one batch's pool
can reach. -/
inductive PoolReach : PoolState → PoolState → Prop where
  | refl (s : PoolState) : PoolReach s s
  | tail {a b c : PoolState} : PoolReach a b → PoolStep b c → PoolReach a c

/-- All size probes in a batch succeed (no file with a URL has a failing
`requests.head`). -/
def headsOk (files : List CFile) : Prop :=
  ∀ f ∈ files, f.url ≠ "" → f.headOk = true

instance (files : List CFile) : Decidable (headsOk files) := by
  unfold headsOk; infer_instance

mutual
/-- Every size probe in the whole folder tree succeeds. -/
def folderHeadsOk : Folder → Bool
  | .mk _ _ _ _ files _ subs =>
    files.all (fun f => f.url == "" || f.headOk) && folderListHeadsOk subs

def folderListHeadsOk : List Folder → Bool
  | [] => true
  | s :: rest => folderHeadsOk s && folderListHeadsOk rest
end

/-! ## Helper lemmas -/

theorem sanitizeChar_allowed (c : Char) :
    isAllowedChar (if isAllowedChar c then c else '_') = true := by
  by_cases h : isAllowedChar c = true
  · simp [h]
  · simp [h]; decide

theorem sanitizeChar_fix (c : Char) (h : isAllowedChar c = true) :
    (if isAllowedChar c then c else '_') = c := by
  simp [h]

theorem startswith_http_ne_empty (s : String) (h : startswith s "http" = true) :
    s ≠ "" := by
  intro he
  subst he
  exact absurd h (by decide)

theorem process_files_append (l rest : List CFile) (dir : String)
    (h : headsOk l) :
    process_files (l ++ rest) dir =
      ((process_files l dir).1 ++ (process_files rest dir).1,
       (process_files rest dir).2) := by
  induction l with
  | nil => simp [process_files]
  | cons f l ih =>
    have hl : headsOk l := fun g hg => h g (List.mem_cons_of_mem f hg)
    by_cases hu : f.url = ""
    · simp [process_files, hu, ih hl]
    · have hh : f.headOk = true := h f (List.mem_cons_self f l) hu
      simp [process_files, hu, hh, ih hl]

theorem process_files_exc_none (l : List CFile) (dir : String)
    (h : headsOk l) :
    (process_files l dir).2 = none := by
  have := process_files_append l [] dir h
  rw [List.append_nil] at this
  rw [this]
  simp [process_files]

theorem download_file_body_fail (f : CFile) (dest : String)
    (hfail : f.getOk = false ∨ f.statusOk = false) :
    download_file_body f dest = ([Effect.apiGet f.url], some Exc.requestError) := by
  unfold download_file_body
  rcases hfail with h | h <;> simp [h]

theorem download_file_fail (f : CFile) (dir : String)
    (hurl : startswith f.url "http" = true)
    (hfail : f.getOk = false ∨ f.statusOk = false) :
    download_file f dir = [Effect.apiGet f.url, Effect.logDownloadFailed f.url] := by
  unfold download_file
  rw [hurl]
  simp [download_file_body_fail f _ hfail]

theorem download_file_success (f : CFile) (dir : String)
    (hurl : startswith f.url "http" = true)
    (hget : f.getOk = true) (hstatus : f.statusOk = true) :
    download_file f dir =
      [Effect.apiGet f.url,
       Effect.fsWrite (pathJoin dir (sanitize_filename f.display_name)),
       Effect.logDownloadSuccess (pathJoin dir (sanitize_filename f.display_name))] := by
  unfold download_file
  rw [hurl]
  simp [download_file_body, hget, hstatus]

/-! ## C1: the sanitizer emits only allow-listed characters and is idempotent -/

/-- C1: for every string s, every character of sanitize_filename(s) is in the
allow-list (word characters, hyphen, underscore, period, space), and
sanitize_filename is idempotent: applying it twice equals applying it once. -/
theorem c1_sanitize_allowlist_and_idempotent (s : String) :
    ((sanitize_filename s).data.all isAllowedChar = true) ∧
    sanitize_filename (sanitize_filename s) = sanitize_filename s := by
  constructor
  · simp only [sanitize_filename, List.all_eq_true]
    intro c hc
    rcases List.mem_map.mp hc with ⟨d, _, rfl⟩
    exact sanitizeChar_allowed d
  · unfold sanitize_filename
    apply congrArg String.mk
    rw [List.map_map]
    apply List.map_congr_left
    intro c _
    exact sanitizeChar_fix _ (sanitizeChar_allowed c)

theorem download_file_counts (f : CFile) (dir : String) :
    (download_file f dir).countP Effect.isSkipNoUrlLog = 0 ∧
    (download_file f dir).countP Effect.isSubmit = 0 := by
  by_cases hu : startswith f.url "http" = false
  · simp [download_file, hu, Effect.isSkipNoUrlLog, Effect.isSubmit]
  · have hu2 : startswith f.url "http" = true := by
      revert hu; cases startswith f.url "http" <;> simp
    by_cases hg : f.getOk = false
    · rw [download_file_fail f dir hu2 (Or.inl hg)]
      simp [Effect.isSkipNoUrlLog, Effect.isSubmit]
    · by_cases hs : f.statusOk = false
      · rw [download_file_fail f dir hu2 (Or.inr hs)]
        simp [Effect.isSkipNoUrlLog, Effect.isSubmit]
      · have hg2 : f.getOk = true := by revert hg; cases f.getOk <;> simp
        have hs2 : f.statusOk = true := by revert hs; cases f.statusOk <;> simp
        rw [download_file_success f dir hu2 hg2 hs2]
        simp [Effect.isSkipNoUrlLog, Effect.isSubmit]

theorem process_files_counts (files : List CFile) (dir : String) :
    headsOk files →
    (process_files files dir).1.countP Effect.isSkipNoUrlLog
        = (files.filter (fun f => f.url == "")).length ∧
    (process_files files dir).1.countP Effect.isSubmit
        = files.length - (files.filter (fun f => f.url == "")).length := by
  induction files with
  | nil => intro _; simp [process_files]
  | cons f rest ih =>
    intro h
    have hl : headsOk rest := fun g hg => h g (List.mem_cons_of_mem f hg)
    obtain ⟨ih1, ih2⟩ := ih hl
    have hle : (rest.filter (fun f => f.url == "")).length ≤ rest.length :=
      List.length_filter_le _ _
    by_cases hu : f.url = ""
    · simp only [process_files, hu, if_pos rfl, List.countP_cons, List.filter_cons]
      simp [hu, Effect.isSkipNoUrlLog, Effect.isSubmit, ih1, ih2]
    · have hh : f.headOk = true := h f (List.mem_cons_self f rest) hu
      obtain ⟨d1, d2⟩ := download_file_counts f dir
      simp only [process_files, hu, if_neg hu, hh, if_pos rfl, List.filter_cons]
      simp [hu, Effect.isSkipNoUrlLog, Effect.isSubmit, List.countP_cons,
        List.countP_append, d1, d2, ih1, ih2]
      omega

/-! ## C3: corrected — counting skips and download attempts in a batch -/

/-- C3 counterexample: a batch of M = 1 file with a URL (so N = 0 URL-less
files) whose size probe raises.  The claim demands M − N = 1 download
attempts, but the loop aborts before submitting the file: 0 tasks are
submitted. -/
theorem c3_counterexample :
    ¬ ((process_files [⟨"http://a", "a", false, true, true⟩] "d").1.countP
        Effect.isSubmit = 1) := by
  decide

/-- C3 amended: in a batch of M files of which N have no URL, provided every
size probe issued for a file with a URL succeeds, exactly N skip-log entries
are produced, exactly M − N download tasks are submitted, and the batch
completes without an exception (a URL-less file never aborts the batch). -/
theorem c3_skip_count_and_attempts (files : List CFile) (dir : String)
    (h : headsOk files) :
    (process_files files dir).1.countP Effect.isSkipNoUrlLog
        = (files.filter (fun f => f.url == "")).length ∧
    (process_files files dir).1.countP Effect.isSubmit
        = files.length - (files.filter (fun f => f.url == "")).length ∧
    (process_files files dir).2 = none :=
  ⟨(process_files_counts files dir h).1, (process_files_counts files dir h).2,
   process_files_exc_none files dir h⟩

/-- C3 witness: a concrete batch of M = 2 files with N = 1 URL-less file
gives 1 skip log, 1 submitted download, and no exception. -/
theorem c3_witness :
    (process_files [⟨"", "x", true, true, true⟩, ⟨"http://a", "y", true, true, true⟩]
        "d").1.countP Effect.isSkipNoUrlLog
      = (([⟨"", "x", true, true, true⟩, ⟨"http://a", "y", true, true, true⟩] :
          List CFile).filter (fun f => f.url == "")).length ∧
    (process_files [⟨"", "x", true, true, true⟩, ⟨"http://a", "y", true, true, true⟩]
        "d").1.countP Effect.isSubmit
      = ([⟨"", "x", true, true, true⟩, ⟨"http://a", "y", true, true, true⟩] :
          List CFile).length -
        (([⟨"", "x", true, true, true⟩, ⟨"http://a", "y", true, true, true⟩] :
          List CFile).filter (fun f => f.url == "")).length ∧
    (process_files [⟨"", "x", true, true, true⟩, ⟨"http://a", "y", true, true, true⟩]
        "d").2 = none :=
  c3_skip_count_and_attempts _ "d" (by decide)

/-! ## C9: a size-probe exception aborts the batch -/

/-- C9: if the HEAD size probe of a file raises (and every earlier probe in
the batch succeeded), process_files stops with the escaping exception right
after that probe: the trace is the earlier files followed by the failed
probe, and the files after the failing one are never examined — the result on
the full batch equals the result on the batch truncated after the failing
file. -/
theorem c9_probe_exception_aborts_batch (pre post : List CFile) (f : CFile)
    (dir : String) (hurl : f.url ≠ "") (hhead : f.headOk = false)
    (hpre : headsOk pre) :
    process_files (pre ++ f :: post) dir =
      ((process_files pre dir).1 ++ [Effect.apiHead f.url], some Exc.requestError) ∧
    process_files (pre ++ f :: post) dir = process_files (pre ++ [f]) dir := by
  have hstep : process_files (f :: post) dir
      = ([Effect.apiHead f.url], some Exc.requestError) := by
    simp [process_files, hurl, hhead]
  have hstep2 : process_files [f] dir
      = ([Effect.apiHead f.url], some Exc.requestError) := by
    simp [process_files, hurl, hhead]
  rw [process_files_append pre (f :: post) dir hpre,
      process_files_append pre [f] dir hpre, hstep, hstep2]
  exact ⟨rfl, rfl⟩

/-- C9 witness: a concrete batch where the second file is never reached
because the first file's probe raises. -/
theorem c9_witness :
    process_files ([] ++ (⟨"http://a", "a", false, true, true⟩ : CFile) ::
        [⟨"http://b", "b", true, true, true⟩]) "d" =
      ((process_files [] "d").1 ++ [Effect.apiHead "http://a"],
        some Exc.requestError) ∧
    process_files ([] ++ (⟨"http://a", "a", false, true, true⟩ : CFile) ::
        [⟨"http://b", "b", true, true, true⟩]) "d" =
      process_files ([] ++ [⟨"http://a", "a", false, true, true⟩]) "d" :=
  c9_probe_exception_aborts_batch [] [⟨"http://b", "b", true, true, true⟩]
    ⟨"http://a", "a", false, true, true⟩ "d" (by decide) rfl (by decide)

/-! ## C10: a non-empty URL that does not start with http -/

/-- C10: for a file whose URL is non-empty but does not start with "http",
download_file produces exactly the invalid-URL log line: no HTTP request and
no filesystem effect occurs. -/
theorem c10_invalid_url_logged_only (f : CFile) (dir : String)
    (hne : f.url ≠ "") (hurl : startswith f.url "http" = false) :
    download_file f dir = [Effect.logInvalidUrl f.url] ∧
    ∀ e ∈ download_file f dir, e.isApiCall = false ∧ e.isFsEffect = false := by
  have ht : download_file f dir = [Effect.logInvalidUrl f.url] := by
    simp [download_file, hurl]
  refine ⟨ht, ?_⟩
  rw [ht]
  intro e he
  rcases List.mem_singleton.mp he with rfl
  exact ⟨rfl, rfl⟩

/-- C10 witness: a concrete ftp URL is rejected without any request. -/
theorem c10_witness :
    download_file ⟨"ftp://x", "n", true, true, true⟩ "d"
        = [Effect.logInvalidUrl "ftp://x"] ∧
    ∀ e ∈ download_file (⟨"ftp://x", "n", true, true, true⟩ : CFile) "d",
      e.isApiCall = false ∧ e.isFsEffect = false :=
  c10_invalid_url_logged_only ⟨"ftp://x", "n", true, true, true⟩ "d"
    (by decide) (by decide)

/-! ## C4: a download failure is caught inside its own task -/

/-- C4: for a submitted file whose download fails (network error on the GET,
or non-2xx status), the exception is raised inside the try body of
download_file, the task itself ends with a failure log instead of letting the
exception escape, and the batch trace decomposes so that every sibling task
contributes exactly the trace it would contribute alone: no sibling is
cancelled or otherwise affected, and the batch terminates normally. -/
theorem c4_download_failure_isolated (f : CFile) (dir : String)
    (pre post : List CFile)
    (hurl : startswith f.url "http" = true) (hhead : f.headOk = true)
    (hfail : f.getOk = false ∨ f.statusOk = false) (hpre : headsOk pre) :
    (download_file_body f (pathJoin dir (sanitize_filename f.display_name))).2
        = some Exc.requestError ∧
    Effect.logDownloadFailed f.url ∈ download_file f dir ∧
    process_files (pre ++ f :: post) dir =
      ((process_files pre dir).1 ++
         Effect.apiHead f.url :: Effect.submitDownload f.url ::
           (download_file f dir ++ (process_files post dir).1),
       (process_files post dir).2) := by
  have hne := startswith_http_ne_empty f.url hurl
  refine ⟨?_, ?_, ?_⟩
  · rw [download_file_body_fail f _ hfail]
  · rw [download_file_fail f dir hurl hfail]
    simp
  · rw [process_files_append pre (f :: post) dir hpre]
    simp [process_files, hne, hhead]

/-- C4 witness: a concrete task whose GET raises is logged as failed and the
(empty) rest of the batch is untouched. -/
theorem c4_witness :
    (download_file_body (⟨"http://x", "n", true, false, true⟩ : CFile)
        (pathJoin "d" (sanitize_filename "n"))).2 = some Exc.requestError ∧
    Effect.logDownloadFailed "http://x" ∈
      download_file (⟨"http://x", "n", true, false, true⟩ : CFile) "d" ∧
    process_files ([] ++ (⟨"http://x", "n", true, false, true⟩ : CFile) :: []) "d" =
      ((process_files [] "d").1 ++
         Effect.apiHead "http://x" :: Effect.submitDownload "http://x" ::
           (download_file (⟨"http://x", "n", true, false, true⟩ : CFile) "d" ++
             (process_files [] "d").1),
       (process_files [] "d").2) :=
  c4_download_failure_isolated ⟨"http://x", "n", true, false, true⟩ "d" [] []
    (by decide) rfl (Or.inl rfl) (by decide)

/-! ## C5: an authorization failure on one subfolder spares its siblings -/

theorem dsl_append (pre rest : List Folder) (dir : String)
    (h : (download_subfolder_list pre dir).2 = none) :
    download_subfolder_list (pre ++ rest) dir =
      ((download_subfolder_list pre dir).1 ++ (download_subfolder_list rest dir).1,
       (download_subfolder_list rest dir).2) := by
  induction pre with
  | nil => simp [download_subfolder_list]
  | cons sub pre ih =>
    cases hc : (download_folder_contents sub (pathJoin dir (sanitize_filename sub.name))).2 with
    | some e =>
      rw [download_subfolder_list] at h
      simp [hc] at h
    | none =>
      rw [download_subfolder_list] at h
      simp only [hc] at h
      rw [List.cons_append, download_subfolder_list, download_subfolder_list]
      simp [hc, ih h, List.append_assoc]

/-- C5: in the loop of download_folder_contents over a list of already
enumerated subfolders, a child whose own get_files raises Unauthorized is
caught inside that child's recursive call, which logs it and returns
normally; the loop then processes every remaining sibling exactly as it would
on its own (same trace and same final exception for the rest). -/
theorem c5_auth_failure_spares_siblings (pre : List Folder) (child : Folder)
    (rest : List Folder) (dir : String)
    (hpre : (download_subfolder_list pre dir).2 = none)
    (hfail : child.filesOk = false) :
    download_subfolder_list (pre ++ child :: rest) dir =
      ((download_subfolder_list pre dir).1 ++
         Effect.fsMkdir (pathJoin dir (sanitize_filename child.name)) ::
         Effect.apiGetFiles child.id :: Effect.logUnauthorizedFolder child.id ::
         (download_subfolder_list rest dir).1,
       (download_subfolder_list rest dir).2) := by
  have hchild : download_folder_contents child
      (pathJoin dir (sanitize_filename child.name)) =
      ([Effect.apiGetFiles child.id, Effect.logUnauthorizedFolder child.id],
        none) := by
    cases child with
    | mk i n fn fo fi so su =>
      simp only [Folder.filesOk] at hfail
      simp [download_folder_contents, hfail, Folder.id]
  rw [dsl_append pre (child :: rest) dir hpre, download_subfolder_list]
  simp [hchild]

/-- C5 witness: a concrete pair of subfolders where the first one's file
listing is unauthorized and the second is still fully processed. -/
theorem c5_witness :
    download_subfolder_list
        ([] ++ Folder.mk 1 "a" "a" false [] true [] ::
          [Folder.mk 2 "b" "b" true [] true []]) "d" =
      ((download_subfolder_list [] "d").1 ++
         Effect.fsMkdir (pathJoin "d" (sanitize_filename "a")) ::
         Effect.apiGetFiles 1 :: Effect.logUnauthorizedFolder 1 ::
         (download_subfolder_list [Folder.mk 2 "b" "b" true [] true []] "d").1,
       (download_subfolder_list [Folder.mk 2 "b" "b" true [] true []] "d").2) :=
  c5_auth_failure_spares_siblings [] (Folder.mk 1 "a" "a" false [] true [])
    [Folder.mk 2 "b" "b" true [] true []] "d"
    (by simp [download_subfolder_list]) rfl

/-! ## C6: the thread pool bounds in-flight downloads by MAX_THREADS = 2 -/

theorem pool_invariant (files : List CFile) (s : PoolState)
    (h : PoolReach (initPool files) s) :
    s.running.length ≤ MAX_THREADS ∧
    s.pending.length + s.running.length + s.done.length
      = (submittedFiles files).length := by
  induction h with
  | refl => simp [initPool]
  | tail hreach hstep ih =>
    obtain ⟨ih1, ih2⟩ := ih
    cases hstep with
    | start t rest s hlt hpend =>
      refine ⟨by simpa using hlt, ?_⟩
      rw [hpend] at ih2
      simp at ih2 ⊢
      omega
    | finish t pre post s hrun =>
      rw [hrun] at ih1 ih2
      simp at ih1 ih2 ⊢
      omega

/-- C6: every state the per-batch pool can reach runs at most MAX_THREADS = 2
download tasks simultaneously, and a final state (nothing pending, nothing
running — the join point process_files waits for) has completed exactly the
submitted tasks. -/
theorem c6_pool_bounded_and_joins (files : List CFile) (s : PoolState)
    (h : PoolReach (initPool files) s) :
    s.running.length ≤ 2 ∧ MAX_THREADS = 2 ∧
    (s.pending = [] → s.running = [] →
      s.done.length = (submittedFiles files).length) := by
  obtain ⟨h1, h2⟩ := pool_invariant files s h
  refine ⟨by simpa [MAX_THREADS] using h1, rfl, ?_⟩
  intro hp hr
  rw [hp, hr] at h2
  simpa using h2

/-- C6 witness: with one submitted file, the pool starts the task and
finishes it; the final state has 0 running tasks and all 1 task done. -/
theorem c6_witness :
    (PoolState.mk [] [] [⟨"http://a", "a", true, true, true⟩]).running.length ≤ 2 ∧
    MAX_THREADS = 2 ∧
    ((PoolState.mk [] [] [(⟨"http://a", "a", true, true, true⟩ : CFile)]).pending = [] →
      (PoolState.mk [] [] [(⟨"http://a", "a", true, true, true⟩ : CFile)]).running = [] →
      (PoolState.mk [] [] [(⟨"http://a", "a", true, true, true⟩ : CFile)]).done.length
        = (submittedFiles [⟨"http://a", "a", true, true, true⟩]).length) :=
  c6_pool_bounded_and_joins [⟨"http://a", "a", true, true, true⟩]
    (PoolState.mk [] [] [⟨"http://a", "a", true, true, true⟩])
    (PoolReach.tail
      (PoolReach.tail (PoolReach.refl _)
        (PoolStep.start ⟨"http://a", "a", true, true, true⟩ [] _ (by decide) rfl))
      (PoolStep.finish ⟨"http://a", "a", true, true, true⟩ [] [] _ rfl))

/-! ## C7: a depth-3 folder tree yields a depth-3 sanitized local tree -/

theorem folderHeadsOk_parts (folder : Folder) (h : folderHeadsOk folder = true) :
    headsOk folder.files ∧ folderListHeadsOk folder.subs = true := by
  cases folder with
  | mk i n fn fo fi so su =>
    simp only [folderHeadsOk, Bool.and_eq_true, List.all_eq_true] at h
    obtain ⟨h1, h2⟩ := h
    refine ⟨fun f hf hne => ?_, h2⟩
    have h3 := h1 f hf
    simp only [Bool.or_eq_true, beq_iff_eq] at h3
    rcases h3 with hbe | hh
    · exact absurd hbe hne
    · exact hh

theorem folderListHeadsOk_mem (subs : List Folder) (sub : Folder)
    (hmem : sub ∈ subs) (h : folderListHeadsOk subs = true) :
    folderHeadsOk sub = true := by
  induction subs with
  | nil => cases hmem
  | cons s rest ih =>
    simp only [folderListHeadsOk, Bool.and_eq_true] at h
    rcases List.mem_cons.mp hmem with rfl | hmem2
    · exact h.1
    · exact ih hmem2 h.2

mutual
theorem dfc_exc_none (folder : Folder) (dir : String)
    (h : folderHeadsOk folder = true) :
    (download_folder_contents folder dir).2 = none := by
  obtain ⟨hfiles, hsubs⟩ := folderHeadsOk_parts folder h
  cases folder with
  | mk i n fn fo fi so su =>
    simp only [Folder.files, Folder.subs] at hfiles hsubs
    by_cases hfo : fo = false
    · simp [download_folder_contents, hfo]
    · have hpf := process_files_exc_none fi dir hfiles
      by_cases hso : so = false
      · simp [download_folder_contents, hfo, hpf, hso]
      · have hrec := dsl_exc_none su dir hsubs
        simp [download_folder_contents, hfo, hpf, hso, hrec]

theorem dsl_exc_none (subs : List Folder) (dir : String)
    (h : folderListHeadsOk subs = true) :
    (download_subfolder_list subs dir).2 = none := by
  match subs with
  | [] => simp [download_subfolder_list]
  | sub :: rest =>
    simp only [folderListHeadsOk, Bool.and_eq_true] at h
    have h1 := dfc_exc_none sub (pathJoin dir (sanitize_filename sub.name)) h.1
    have h2 := dsl_exc_none rest dir h.2
    simp [download_subfolder_list, h1, h2]
end

theorem pf_mem (files : List CFile) (dir : String) (f : CFile)
    (hmem : f ∈ files) (hne : f.url ≠ "") (h : headsOk files) :
    ∀ e ∈ download_file f dir, e ∈ (process_files files dir).1 := by
  induction files with
  | nil => cases hmem
  | cons g rest ih =>
    have hl : headsOk rest := fun x hx => h x (List.mem_cons_of_mem g hx)
    intro e he
    rcases List.mem_cons.mp hmem with rfl | hmem2
    · have hh : f.headOk = true := h f (List.mem_cons_self f rest) hne
      simp [process_files, hne, hh, List.mem_cons, List.mem_append]
      tauto
    · by_cases hgu : g.url = ""
      · simp [process_files, hgu, List.mem_cons]
        right
        exact ih hmem2 hl e he
      · have hgh : g.headOk = true := h g (List.mem_cons_self g rest) hgu
        have := ih hmem2 hl e he
        simp [process_files, hgu, hgh, List.mem_cons, List.mem_append]
        tauto

theorem pf_sub_dfc (folder : Folder) (dir : String)
    (hfo : folder.filesOk = true) :
    ∀ e ∈ (process_files folder.files dir).1,
      e ∈ (download_folder_contents folder dir).1 := by
  cases folder with
  | mk i n fn fo fi so su =>
    simp only [Folder.filesOk] at hfo
    simp only [Folder.files]
    intro e he
    cases hp : (process_files fi dir).2 with
    | some ex =>
      simp [download_folder_contents, hfo, hp, List.mem_cons]
      tauto
    | none =>
      by_cases hso : so = false
      · simp [download_folder_contents, hfo, hp, hso, List.mem_cons, List.mem_append]
        tauto
      · simp [download_folder_contents, hfo, hp, hso, List.mem_cons, List.mem_append]
        tauto

theorem dsl_mem (subs : List Folder) (dir : String) (sub : Folder)
    (hmem : sub ∈ subs) (hall : folderListHeadsOk subs = true) :
    Effect.fsMkdir (pathJoin dir (sanitize_filename sub.name))
        ∈ (download_subfolder_list subs dir).1 ∧
    ∀ e ∈ (download_folder_contents sub (pathJoin dir (sanitize_filename sub.name))).1,
      e ∈ (download_subfolder_list subs dir).1 := by
  induction subs with
  | nil => cases hmem
  | cons g rest ih =>
    simp only [folderListHeadsOk, Bool.and_eq_true] at hall
    have hg_none := dfc_exc_none g (pathJoin dir (sanitize_filename g.name)) hall.1
    rcases List.mem_cons.mp hmem with rfl | hmem2
    · constructor
      · rw [download_subfolder_list]
        simp [hg_none]
      · intro e he
        rw [download_subfolder_list]
        simp [hg_none, List.mem_cons, List.mem_append]
        tauto
    · obtain ⟨ih1, ih2⟩ := ih hmem2 hall.2
      constructor
      · rw [download_subfolder_list]
        simp [hg_none, List.mem_cons, List.mem_append]
        tauto
      · intro e he
        have := ih2 e he
        rw [download_subfolder_list]
        simp [hg_none, List.mem_cons, List.mem_append]
        tauto

theorem dfc_subs_mem (folder : Folder) (dir : String)
    (hfo : folder.filesOk = true) (hso : folder.subsOk = true)
    (hheads : folderHeadsOk folder = true) :
    ∀ e ∈ (download_subfolder_list folder.subs dir).1,
      e ∈ (download_folder_contents folder dir).1 := by
  obtain ⟨hfiles, _⟩ := folderHeadsOk_parts folder hheads
  cases folder with
  | mk i n fn fo fi so su =>
    simp only [Folder.filesOk] at hfo
    simp only [Folder.subsOk] at hso
    simp only [Folder.files] at hfiles
    simp only [Folder.subs]
    have hpf := process_files_exc_none fi dir hfiles
    intro e he
    simp [download_folder_contents, hfo, hso, hpf, List.mem_cons, List.mem_append]
    tauto

/-- C7: for a folder tree holding a file at depth 3 (root, a subfolder sub1
of it, a subfolder sub2 of sub1, a file f in sub2), when the walk can reach
the file (all accesses on the path are authorized and no size probe in the
tree raises) and its download succeeds, the walk creates the local directory
of each level named with the sanitized remote folder name, and writes the
file under its sanitized display name at depth 3. -/
theorem c7_depth_three_sanitized_tree (root sub1 sub2 : Folder) (f : CFile)
    (dir : String)
    (hheads : folderHeadsOk root = true)
    (h1 : sub1 ∈ root.subs) (h2 : sub2 ∈ sub1.subs) (hf : f ∈ sub2.files)
    (hrfo : root.filesOk = true) (hrso : root.subsOk = true)
    (h1fo : sub1.filesOk = true) (h1so : sub1.subsOk = true)
    (h2fo : sub2.filesOk = true)
    (hurl : startswith f.url "http" = true)
    (hget : f.getOk = true) (hstatus : f.statusOk = true) :
    Effect.fsMkdir (pathJoin dir (sanitize_filename sub1.name))
        ∈ (download_folder_contents root dir).1 ∧
    Effect.fsMkdir (pathJoin (pathJoin dir (sanitize_filename sub1.name))
        (sanitize_filename sub2.name))
        ∈ (download_folder_contents root dir).1 ∧
    Effect.fsWrite (pathJoin (pathJoin (pathJoin dir (sanitize_filename sub1.name))
        (sanitize_filename sub2.name)) (sanitize_filename f.display_name))
        ∈ (download_folder_contents root dir).1 := by
  have hsubs0 : folderListHeadsOk root.subs = true := (folderHeadsOk_parts root hheads).2
  have hheads1 : folderHeadsOk sub1 = true := folderListHeadsOk_mem _ _ h1 hsubs0
  have hsubs1 : folderListHeadsOk sub1.subs = true := (folderHeadsOk_parts sub1 hheads1).2
  have hheads2 : folderHeadsOk sub2 = true := folderListHeadsOk_mem _ _ h2 hsubs1
  have hfiles2 : headsOk sub2.files := (folderHeadsOk_parts sub2 hheads2).1
  have hne : f.url ≠ "" := startswith_http_ne_empty f.url hurl
  have lift1 := (dsl_mem root.subs dir sub1 h1 hsubs0).2
  have liftr := dfc_subs_mem root dir hrfo hrso hheads
  have lift2 := (dsl_mem sub1.subs (pathJoin dir (sanitize_filename sub1.name))
    sub2 h2 hsubs1).2
  have lift1d := dfc_subs_mem sub1 (pathJoin dir (sanitize_filename sub1.name))
    h1fo h1so hheads1
  refine ⟨?_, ?_, ?_⟩
  · exact liftr _ ((dsl_mem root.subs dir sub1 h1 hsubs0).1)
  · exact liftr _ (lift1 _ (lift1d _
      ((dsl_mem sub1.subs (pathJoin dir (sanitize_filename sub1.name)) sub2 h2 hsubs1).1)))
  · have hw : Effect.fsWrite (pathJoin (pathJoin (pathJoin dir
        (sanitize_filename sub1.name)) (sanitize_filename sub2.name))
        (sanitize_filename f.display_name)) ∈
        download_file f (pathJoin (pathJoin dir (sanitize_filename sub1.name))
          (sanitize_filename sub2.name)) := by
      rw [download_file_success f _ hurl hget hstatus]
      simp
    have s1 := pf_mem sub2.files _ f hf hne hfiles2 _ hw
    have s2 := pf_sub_dfc sub2 _ h2fo _ s1
    have s3 := lift2 _ s2
    have s4 := lift1d _ s3
    have s5 := lift1 _ s4
    exact liftr _ s5

/-- C7 witness: a concrete depth-3 tree with one file is mirrored locally
with sanitized names at every level. -/
theorem c7_witness :
    Effect.fsMkdir (pathJoin "d" (sanitize_filename "b"))
        ∈ (download_folder_contents
            (Folder.mk 1 "a" "a" true [] true
              [Folder.mk 2 "b" "b" true [] true
                [Folder.mk 3 "c" "c" true
                  [⟨"http://f", "file.txt", true, true, true⟩] true []]]) "d").1 ∧
    Effect.fsMkdir (pathJoin (pathJoin "d" (sanitize_filename "b"))
        (sanitize_filename "c"))
        ∈ (download_folder_contents
            (Folder.mk 1 "a" "a" true [] true
              [Folder.mk 2 "b" "b" true [] true
                [Folder.mk 3 "c" "c" true
                  [⟨"http://f", "file.txt", true, true, true⟩] true []]]) "d").1 ∧
    Effect.fsWrite (pathJoin (pathJoin (pathJoin "d" (sanitize_filename "b"))
        (sanitize_filename "c")) (sanitize_filename "file.txt"))
        ∈ (download_folder_contents
            (Folder.mk 1 "a" "a" true [] true
              [Folder.mk 2 "b" "b" true [] true
                [Folder.mk 3 "c" "c" true
                  [⟨"http://f", "file.txt", true, true, true⟩] true []]]) "d").1 :=
  c7_depth_three_sanitized_tree
    (Folder.mk 1 "a" "a" true [] true
      [Folder.mk 2 "b" "b" true [] true
        [Folder.mk 3 "c" "c" true [⟨"http://f", "file.txt", true, true, true⟩] true []]])
    (Folder.mk 2 "b" "b" true [] true
      [Folder.mk 3 "c" "c" true [⟨"http://f", "file.txt", true, true, true⟩] true []])
    (Folder.mk 3 "c" "c" true [⟨"http://f", "file.txt", true, true, true⟩] true [])
    ⟨"http://f", "file.txt", true, true, true⟩ "d"
    (by simp [folderHeadsOk, folderListHeadsOk])
    (by simp [Folder.subs]) (by simp [Folder.subs]) (by simp [Folder.files])
    rfl rfl rfl rfl rfl (by decide) rfl rfl

/-! ## C2: an existing course directory makes the course a no-op -/

/-- C2: when the local directory for the sanitized course name already
exists, download_course_files emits exactly the course resolution call, the
processing log and the skip log: exactly one API call (the course-name
resolution) and zero filesystem effects, leaving all state unchanged. -/
theorem c2_existing_dir_skips_course (env : Env) (fs : List String)
    (course_id : Nat) (course : Course)
    (hc : env.getCourse course_id = CourseResult.ok course)
    (hex : fs.contains (pathJoin "canvas_downloads" (sanitize_filename course.name))
      = true) :
    download_course_files env fs course_id =
      [Effect.apiGetCourse course_id, Effect.logProcessingCourse course.name,
       Effect.logSkipCourseExists course.name] ∧
    (download_course_files env fs course_id).countP Effect.isApiCall = 1 ∧
    (download_course_files env fs course_id).countP Effect.isFsEffect = 0 := by
  have ht : download_course_files env fs course_id =
      [Effect.apiGetCourse course_id, Effect.logProcessingCourse course.name,
       Effect.logSkipCourseExists course.name] := by
    have hex2 : pathJoin "canvas_downloads" (sanitize_filename course.name) ∈ fs := by
      simpa using hex
    simp [download_course_files, hc, hex2]
  rw [ht]
  refine ⟨rfl, ?_, ?_⟩ <;>
    simp [Effect.isApiCall, Effect.isFsEffect]

/-- C2 witness: a concrete course whose directory is already present is
skipped with one API call and no filesystem effect. -/
theorem c2_witness :
    download_course_files
        ⟨fun _ => CourseResult.ok ⟨1, "A", true, [], true, []⟩, fun _ => none⟩
        ["canvas_downloads/A"] 1 =
      [Effect.apiGetCourse 1, Effect.logProcessingCourse "A",
       Effect.logSkipCourseExists "A"] ∧
    (download_course_files
        ⟨fun _ => CourseResult.ok ⟨1, "A", true, [], true, []⟩, fun _ => none⟩
        ["canvas_downloads/A"] 1).countP Effect.isApiCall = 1 ∧
    (download_course_files
        ⟨fun _ => CourseResult.ok ⟨1, "A", true, [], true, []⟩, fun _ => none⟩
        ["canvas_downloads/A"] 1).countP Effect.isFsEffect = 0 :=
  c2_existing_dir_skips_course
    ⟨fun _ => CourseResult.ok ⟨1, "A", true, [], true, []⟩, fun _ => none⟩
    ["canvas_downloads/A"] 1 ⟨1, "A", true, [], true, []⟩ rfl (by decide)

/-! ## C8: the walk is rooted at the folder whose full name is course files -/

/-- C8: for a course that is actually processed (its directory does not
exist) and whose folder listing succeeds, when a folder matching the literal
name "course files" exists, the selected root is the first folder whose
full_name equals "course files", and the whole files pass consists of exactly
one folder walk, rooted at that folder — no other folder is chosen as the
root. -/
theorem c8_root_is_course_files_folder (env : Env) (fs : List String)
    (course_id : Nat) (course : Course) (root : Folder)
    (hc : env.getCourse course_id = CourseResult.ok course)
    (hnex : fs.contains (pathJoin "canvas_downloads" (sanitize_filename course.name))
      = false)
    (hfo : course.foldersOk = true)
    (hroot : findRootFolder course.folders = some root) :
    root.full_name = "course files" ∧
    download_course_files env fs course_id =
      [Effect.apiGetCourse course_id, Effect.logProcessingCourse course.name,
       Effect.fsMkdir (pathJoin "canvas_downloads" (sanitize_filename course.name)),
       Effect.apiGetFolders course_id] ++
      ((download_folder_contents root
          (pathJoin "canvas_downloads" (sanitize_filename course.name))).1 ++
        (match (download_folder_contents root
            (pathJoin "canvas_downloads" (sanitize_filename course.name))).2 with
         | none => []
         | some (Exc.unauthorized _) => [Effect.logUnauthorizedInCourse course_id]
         | some Exc.requestError => [Effect.logErrorFiles course_id])) ++
      modules_pass env course course_id
        (pathJoin "canvas_downloads" (sanitize_filename course.name)) := by
  constructor
  · have hp := List.find?_some hroot
    simpa using hp
  · have hnex2 : pathJoin "canvas_downloads" (sanitize_filename course.name) ∉ fs := by
      simpa using hnex
    simp [download_course_files, hc, hnex2, course_files_pass, hfo, hroot]

/-- C8 witness: a concrete course with one folder named "course files" has
its walk rooted exactly there. -/
theorem c8_witness :
    (Folder.mk 10 "course files" "course files" true [] true []).full_name
      = "course files" ∧
    download_course_files
        ⟨fun _ => CourseResult.ok
          ⟨1, "A", true, [Folder.mk 10 "course files" "course files" true [] true []],
            true, []⟩, fun _ => none⟩ [] 1 =
      [Effect.apiGetCourse 1, Effect.logProcessingCourse "A",
       Effect.fsMkdir (pathJoin "canvas_downloads" (sanitize_filename "A")),
       Effect.apiGetFolders 1] ++
      ((download_folder_contents
          (Folder.mk 10 "course files" "course files" true [] true [])
          (pathJoin "canvas_downloads" (sanitize_filename "A"))).1 ++
        (match (download_folder_contents
            (Folder.mk 10 "course files" "course files" true [] true [])
            (pathJoin "canvas_downloads" (sanitize_filename "A"))).2 with
         | none => []
         | some (Exc.unauthorized _) => [Effect.logUnauthorizedInCourse 1]
         | some Exc.requestError => [Effect.logErrorFiles 1])) ++
      modules_pass
        ⟨fun _ => CourseResult.ok
          ⟨1, "A", true, [Folder.mk 10 "course files" "course files" true [] true []],
            true, []⟩, fun _ => none⟩
        ⟨1, "A", true, [Folder.mk 10 "course files" "course files" true [] true []],
          true, []⟩ 1 (pathJoin "canvas_downloads" (sanitize_filename "A")) :=
  c8_root_is_course_files_folder
    ⟨fun _ => CourseResult.ok
      ⟨1, "A", true, [Folder.mk 10 "course files" "course files" true [] true []],
        true, []⟩, fun _ => none⟩ [] 1
    ⟨1, "A", true, [Folder.mk 10 "course files" "course files" true [] true []],
      true, []⟩
    (Folder.mk 10 "course files" "course files" true [] true [])
    rfl rfl rfl rfl
